import Mathlib

/-!
Shallow embedding of the ethers-batch_request crate.

Embedded source files:
* src/batch.rs — BatchError, BatchRequest (add_request, set_ids, requests,
  requests_mut, len, is_empty), BatchResponse (new, id, next_response, len,
  is_empty).
* src/relay.rs — the Relay id counter (AtomicU64), Relay::new, the Clone
  impl, the counter/stamping prefix and the decode/correlate suffix of
  Relay::execute_batch.

src/jsonrpc.rs is declared by src/lib.rs but is not present under src/; the
shapes of Request, Response and JsonRpcError are therefore modelled from the
spec (sections 3, 4.1 and 6) and from how batch.rs and relay.rs pattern-match
on them.

Machine integers: ids and the relay counter are u64 in the source; they are
embedded as Nat with explicit reduction modulo 2 ^ 64 at each increment,
matching release-mode wrapping arithmetic.

Panics (the expect in set_ids and the unreachable arm in BatchResponse::new)
are embedded as a none result of an Option layer, distinct from the Err
results the source returns as values.
-/

namespace BatchRpc

/-- One past the largest u64 value: ids and the relay counter wrap at this
modulus. -/
def U64 : Nat := 2 ^ 64

/-- An opaque raw JSON payload: serde_json RawValue is kept as its raw text,
never eagerly decoded. -/
abbrev RawValue := String

/-- The JSON-RPC error object. Modelled from the spec: src/jsonrpc.rs is not
under src/; spec section 3 gives an error of code, message and optional data.
batch.rs and relay.rs treat the value as opaque. -/
structure JsonRpcError where
  code : Int
  message : String
  data : Option String
deriving DecidableEq, Repr

/-- A parsed JSON-RPC response entry. The Success and Error shapes are those
matched in BatchResponse::new (src/batch.rs lines 127-131); the Notification
shape, with no id, is modelled from the spec (src/jsonrpc.rs is not under
src/). -/
inductive Response where
  | success (id : Nat) (result : RawValue)
  | error (id : Nat) (err : JsonRpcError)
  | notification (method : String) (params : RawValue)
deriving DecidableEq, Repr

/-- BatchError (src/batch.rs lines 13-25). A serde_json error is carried as
its message text. -/
inductive BatchError where
  | jsonError (msg : String)
  | jsonRpcError (e : JsonRpcError)
  | emptyBatch
deriving DecidableEq, Repr

/-- The serde_json Value stored for one request in BatchRequest.requests.
Every stored Value is produced by serializing Request::new(0, method, params)
(src/batch.rs line 67), an object with fields jsonrpc, id, method and params;
params is kept as its serialized text. The id field is an Option so that the
get_mut("id") presence check of set_ids is faithful. -/
structure RequestValue where
  jsonrpc : String
  id : Option Nat
  method : String
  params : RawValue
deriving DecidableEq, Repr

/-- BatchRequest (src/batch.rs lines 37-40): an ordered vector of serialized
requests. -/
structure BatchRequest where
  requests : List RequestValue
deriving DecidableEq, Repr

/-- BatchRequest::new (src/batch.rs lines 43-45). -/
def BatchRequest.new : BatchRequest := ⟨[]⟩

/-- BatchRequest::len (src/batch.rs lines 53-55). -/
def BatchRequest.len (b : BatchRequest) : Nat := b.requests.length

/-- BatchRequest::add_request (src/batch.rs lines 63-70): serializes
Request::new(0, method, params) and pushes it. It never inspects emptiness;
its only error source is params serialization, which for an already
serialized params text always succeeds. -/
def BatchRequest.addRequest (b : BatchRequest) (method : String)
    (params : RawValue) : Except BatchError BatchRequest :=
  Except.ok ⟨b.requests ++ [⟨"2.0", some 0, method, params⟩]⟩

/-- BatchRequest::requests (src/batch.rs lines 107-109): EmptyBatch on an
empty batch, otherwise the request slice. -/
def BatchRequest.getRequests (b : BatchRequest) :
    Except BatchError (List RequestValue) :=
  if b.requests.isEmpty then .error .emptyBatch else .ok b.requests

/-- BatchRequest::requests_mut (src/batch.rs lines 98-100): same emptiness
behaviour as requests; the returned slice is the one set_ids iterates. -/
def BatchRequest.getRequestsMut (b : BatchRequest) :
    Except BatchError (List RequestValue) :=
  if b.requests.isEmpty then .error .emptyBatch else .ok b.requests

/-- The loop of BatchRequest::set_ids (src/batch.rs lines 83-88): stamp each
request with first, first+1, ... (u64 wraparound on the increment); none
models the expect panic on a request whose id field is missing. -/
def setIdsGo : List RequestValue → Nat → Option (List RequestValue)
  | [], _ => some []
  | r :: rs, first =>
    match r.id with
    | none => none
    | some _ =>
      (setIdsGo rs ((first + 1) % U64)).map
        (fun rs2 => { r with id := some first } :: rs2)

/-- BatchRequest::set_ids (src/batch.rs lines 81-91): requests_mut supplies
the slice (EmptyBatch on an empty batch), then the loop stamps sequential
ids; the outer none models the expect panic. -/
def BatchRequest.setIds (b : BatchRequest) (first : Nat) :
    Option (Except BatchError BatchRequest) :=
  match b.getRequestsMut with
  | .error e => some (.error e)
  | .ok rs => (setIdsGo rs first).map (fun rs2 => .ok ⟨rs2⟩)

/-- The payload of one stored response: Result of raw value or JSON-RPC
error (src/batch.rs line 115). -/
abbrev RpcResult := Except JsonRpcError RawValue

/-- One stored (id, result) pair of a BatchResponse. -/
abbrev RpcEntry := Nat × RpcResult

instance {ε α : Type} [DecidableEq ε] [DecidableEq α] :
    DecidableEq (Except ε α) := fun a b =>
  match a, b with
  | .ok x, .ok y =>
    if h : x = y then isTrue (by rw [h]) else isFalse (by simp [h])
  | .ok _, .error _ => isFalse (by simp)
  | .error _, .ok _ => isFalse (by simp)
  | .error x, .error y =>
    if h : x = y then isTrue (by rw [h]) else isFalse (by simp [h])

/-- The key order of the sort in BatchResponse::new: sort_by_key with
Reverse(id) orders entries by descending id. -/
def geById (a b : RpcEntry) : Prop := b.1 ≤ a.1

instance : DecidableRel geById := fun a b =>
  inferInstanceAs (Decidable (b.1 ≤ a.1))

instance : IsTotal RpcEntry geById :=
  ⟨fun a b => (Nat.le_total b.1 a.1).elim Or.inl Or.inr⟩

instance : IsTrans RpcEntry geById :=
  ⟨fun _ _ _ h1 h2 => Nat.le_trans h2 h1⟩

/-- BatchResponse (src/batch.rs lines 113-116): the stored vector of (id,
result) pairs, kept sorted by descending id so that Vec::pop retrieves
ascending ids. -/
structure BatchResponse where
  responses : List RpcEntry
deriving DecidableEq

/-- The per-entry conversion inside BatchResponse::new (src/batch.rs lines
127-131): Success and Error become (id, result) pairs; the wildcard arm is
unreachable!, modelled as none. -/
def Response.toEntry : Response → Option RpcEntry
  | .success id result => some (id, .ok result)
  | .error id e => some (id, .error e)
  | .notification _ _ => none

/-- The map-and-collect over the response vector in BatchResponse::new; none
models the unreachable! panic on a Notification. -/
def toEntries : List Response → Option (List RpcEntry)
  | [] => some []
  | r :: rs =>
    match r.toEntry with
    | none => none
    | some e => (toEntries rs).map (fun es => e :: es)

/-- BatchResponse::new (src/batch.rs lines 124-139): convert every entry,
then sort by descending id. Vec::sort_by_key is a stable sort, whose output
is uniquely determined by the comparator; it is embedded as the stable
insertion sort with the same descending-id comparator. -/
def BatchResponse.new? (rs : List Response) : Option BatchResponse :=
  (toEntries rs).map (fun es => ⟨List.insertionSort geById es⟩)

/-- BatchResponse::id (src/batch.rs lines 142-146): the id of the last
stored entry (Vec::last), EmptyBatch when no entries remain. -/
def BatchResponse.id (b : BatchResponse) : Except BatchError Nat :=
  match b.responses.getLast? with
  | none => .error .emptyBatch
  | some e => .ok e.1

/-- The body handling of next_response (src/batch.rs lines 160-163): a
stored JSON-RPC error converts into BatchError (the From impl) and is
propagated; a success payload is decoded into the target type by the
caller-chosen serde decoder. -/
def decodeBody {T : Type} (dec : RawValue → Except String T) :
    RpcResult → Except BatchError T
  | .error e => .error (.jsonRpcError e)
  | .ok raw =>
    match dec raw with
    | .error msg => .error (.jsonError msg)
    | .ok v => .ok v

/-- BatchResponse::next_response (src/batch.rs lines 153-164): Vec::pop
takes the last stored entry; the popped body is decoded. The decoder stands
for serde_json::from_str at the caller-chosen type T. Returns the call
result together with the updated state. -/
def BatchResponse.nextResponse {T : Type} (dec : RawValue → Except String T)
    (b : BatchResponse) : Option (Except BatchError T) × BatchResponse :=
  match b.responses.getLast? with
  | none => (none, b)
  | some e => (some (decodeBody dec e.2), ⟨b.responses.dropLast⟩)

/-- BatchResponse::len (src/batch.rs lines 167-169). -/
def BatchResponse.len (b : BatchResponse) : Nat := b.responses.length

/-- The results of k successive next_response calls, in call order. -/
def BatchResponse.drainN {T : Type} (dec : RawValue → Except String T) :
    Nat → BatchResponse → List (Option (Except BatchError T))
  | 0, _ => []
  | Nat.succ k, b =>
    (b.nextResponse dec).1 :: BatchResponse.drainN dec k (b.nextResponse dec).2

/-- The pop inside next_response, kept at entry level so the popped id stays
visible: next_response is decodeBody composed with this pop. -/
def BatchResponse.popEntry (b : BatchResponse) :
    Option (RpcEntry × BatchResponse) :=
  match b.responses.getLast? with
  | none => none
  | some e => some (e, ⟨b.responses.dropLast⟩)

/-- Iterated popEntry with fuel. -/
def drainEntriesGo : Nat → BatchResponse → List RpcEntry
  | 0, _ => []
  | Nat.succ k, b =>
    match b.popEntry with
    | none => []
    | some (e, b2) => e :: drainEntriesGo k b2

/-- The full sequence of (id, result) entries popped while draining a
BatchResponse with next_response. -/
def BatchResponse.drainEntries (b : BatchResponse) : List RpcEntry :=
  drainEntriesGo b.responses.length b

/-- Relay (src/relay.rs lines 14-19): the AtomicU64 id counter and the
target url; the reqwest Client carries no state observable here. -/
structure Relay where
  id : Nat
  url : String
deriving DecidableEq, Repr

/-- Relay::new (src/relay.rs lines 44-50): the counter starts at 0. -/
def Relay.new (url : String) : Relay := ⟨0, url⟩

/-- The Clone impl for Relay (src/relay.rs lines 120-124): the clone gets a
fresh AtomicU64 holding 1, whatever the original counter holds. -/
def Relay.clone (r : Relay) : Relay := ⟨1, r.url⟩

/-- The counter step of a single Relay::request (src/relay.rs line 58):
fetch_add(1) returns the claimed id and advances the counter with u64
wraparound. -/
def Relay.fetchAddOne (r : Relay) : Nat × Relay :=
  (r.id, ⟨(r.id + 1) % U64, r.url⟩)

/-- The id-reservation and stamping prefix of Relay::execute_batch
(src/relay.rs lines 96-98): one fetch_add of len(batch) reserves the block
and set_ids stamps from the reserved first id. The network send and the
response decode follow and never touch the counter. -/
def Relay.executeBatchIds (r : Relay) (b : BatchRequest) :
    Relay × Option (Except BatchError BatchRequest) :=
  (⟨(r.id + b.len) % U64, r.url⟩, b.setIds r.id)

/-- A decoded JSON object from a response array element, reduced to the
envelope fields the codec inspects. Modelled from the spec: src/jsonrpc.rs
is not under src/; spec section 4.1 classifies by presence or absence of id,
result and error. -/
structure Envelope where
  id : Option Nat
  result : Option RawValue
  errorObj : Option JsonRpcError
  method : Option String
  params : Option RawValue
deriving DecidableEq, Repr

/-- Modelled from the spec: Response deserialization (src/jsonrpc.rs is not
under src/) yields Success, Error or Notification by presence or absence of
the id, result and error fields; anything else is a deserialization
failure. -/
def Envelope.toResponse : Envelope → Option Response
  | ⟨some i, some res, none, _, _⟩ => some (.success i res)
  | ⟨some i, none, some e, _, _⟩ => some (.error i e)
  | ⟨none, none, none, some m, some p⟩ => some (.notification m p)
  | _ => none

/-- Element-wise decode of the response array, as
serde_json::from_str::<Vec<Response>> does after JSON parsing; none is a
SerdeJson failure of the whole call. -/
def decodeResponseArray : List Envelope → Option (List Response)
  | [] => some []
  | e :: es =>
    match e.toResponse with
    | none => none
    | some r => (decodeResponseArray es).map (fun rs => r :: rs)

/-- The decode-and-correlate suffix of Relay::execute_batch (src/relay.rs
lines 104-107): the parsed vector is handed unfiltered to
BatchResponse::new. The inner Except is the SerdeJson error path; the outer
none models the unreachable! panic BatchResponse::new hits on a
Notification. -/
def executeBatchDecode (elems : List Envelope) :
    Option (Except String BatchResponse) :=
  match decodeResponseArray elems with
  | none => some (.error "SerdeJson")
  | some rs =>
    match BatchResponse.new? rs with
    | none => none
    | some b => some (.ok b)

/-- Modelled from the spec (section 4.2): the id sequence first, first+1, …
stamped over the requests in insertion order, all other fields unchanged.
Specification side of set_ids, to be compared with the embedding. -/
def stampedWith (first : Nat) : List RequestValue → List RequestValue
  | [] => []
  | r :: rs => { r with id := some first } :: stampedWith (first + 1) rs

/-- The embedding of a list of already-tagged (id, success-or-error) entries
back into Response values, inverse to Response.toEntry on the
notification-free fragment. -/
def entryToResponse : RpcEntry → Response
  | (i, .ok raw) => .success i raw
  | (i, .error e) => .error i e

/-- Descending-by-id sortedness: the internal invariant of
BatchResponse.responses. -/
def sortedDesc (l : List RpcEntry) : Prop :=
  l.Pairwise (fun a b => b.1 ≤ a.1)

instance (l : List RpcEntry) : Decidable (sortedDesc l) :=
  inferInstanceAs (Decidable (l.Pairwise _))

/-! ### Supporting lemmas -/

theorem drainEntriesGo_eq_reverse (k : Nat) :
    ∀ l : List RpcEntry, l.length ≤ k →
      drainEntriesGo k ⟨l⟩ = l.reverse := by
  induction k with
  | zero =>
    intro l hl
    rw [List.length_eq_zero.mp (Nat.le_zero.mp hl)]
    rfl
  | succ k ih =>
    intro l hl
    rcases l.eq_nil_or_concat with rfl | ⟨l2, e, rfl⟩
    · rfl
    · rw [List.concat_eq_append] at *
      have hpop : (BatchResponse.mk (l2 ++ [e])).popEntry =
          some (e, ⟨l2⟩) := by
        simp [BatchResponse.popEntry, List.getLast?_concat]
      have hlen : l2.length ≤ k := by
        simpa [Nat.succ_le_succ_iff] using hl
      simp [drainEntriesGo, hpop, ih l2 hlen, List.reverse_append]

/-- Draining pops the stored entries back to front. -/
theorem drainEntries_eq_reverse (l : List RpcEntry) :
    (BatchResponse.mk l).drainEntries = l.reverse :=
  drainEntriesGo_eq_reverse l.length l (Nat.le_refl _)

/-- Closed form of k successive next_response calls: the stored entries are
served back to front, decoded, and exhaustion yields none indefinitely. -/
theorem drainN_closed_form {T : Type} (dec : RawValue → Except String T)
    (k : Nat) : ∀ l : List RpcEntry,
    BatchResponse.drainN dec k ⟨l⟩ =
      (l.reverse.take k).map (fun e => some (decodeBody dec e.2)) ++
        List.replicate (k - l.length) none := by
  induction k with
  | zero => intro l; simp [BatchResponse.drainN]
  | succ k ih =>
    intro l
    rcases l.eq_nil_or_concat with rfl | ⟨l2, e, rfl⟩
    · simp [BatchResponse.drainN, BatchResponse.nextResponse, ih,
        List.replicate_succ]
    · rw [List.concat_eq_append]
      have hnext : (BatchResponse.mk (l2 ++ [e])).nextResponse dec =
          (some (decodeBody dec e.2), ⟨l2⟩) := by
        simp [BatchResponse.nextResponse, List.getLast?_concat]
      simp [BatchResponse.drainN, hnext, ih, List.reverse_append,
        Nat.succ_sub_succ]

/-- The sort in BatchResponse::new produces the descending-id invariant. -/
theorem sortedDesc_insertionSort (l : List RpcEntry) :
    sortedDesc (List.insertionSort geById l) := by
  have h := List.sorted_insertionSort geById l
  exact h.imp (fun hab => hab)

/-- BatchResponse::new establishes the descending-id invariant. -/
theorem new?_sortedDesc (rs : List Response) (b : BatchResponse)
    (h : BatchResponse.new? rs = some b) : sortedDesc b.responses := by
  unfold BatchResponse.new? at h
  rcases hes : toEntries rs with _ | es
  · rw [hes] at h; simp at h
  · rw [hes] at h
    have h2 : some (BatchResponse.mk (List.insertionSort geById es)) =
        some b := h
    cases h2
    exact sortedDesc_insertionSort es

/-- Popping preserves the descending-id invariant, so every reachable
BatchResponse state satisfies it. -/
theorem nextResponse_sortedDesc {T : Type} (dec : RawValue → Except String T)
    (b : BatchResponse) (h : sortedDesc b.responses) :
    sortedDesc (b.nextResponse dec).2.responses := by
  unfold BatchResponse.nextResponse
  rcases hl : b.responses.getLast? with _ | e
  · exact h
  · exact List.Pairwise.sublist (List.dropLast_sublist _) h

/-- toEntries recovers an entry list embedded through entryToResponse. -/
theorem toEntries_map_entryToResponse (es : List RpcEntry) :
    toEntries (es.map entryToResponse) = some es := by
  induction es with
  | nil => rfl
  | cons e es ih =>
    have he : (entryToResponse e).toEntry = some e := by
      rcases e with ⟨i, raw | err⟩ <;> rfl
    simp [toEntries, he, ih]

/-- The strict descending key order: the antisymmetric strengthening of
geById available on duplicate-free ids. -/
def gtById (a b : RpcEntry) : Prop := b.1 < a.1

instance : IsAntisymm RpcEntry gtById :=
  ⟨fun _ _ h1 h2 => absurd (Nat.lt_trans h1 h2) (Nat.lt_irrefl _)⟩

/-- On entry lists without duplicate ids, every stable descending sort of a
permutation yields one and the same list. -/
theorem insertionSort_eq_of_perm (es es2 : List RpcEntry)
    (hp : es.Perm es2) (hnd : (es.map Prod.fst).Nodup) :
    List.insertionSort geById es = List.insertionSort geById es2 := by
  have hperm : (List.insertionSort geById es).Perm
      (List.insertionSort geById es2) :=
    (List.perm_insertionSort geById es).trans
      (hp.trans (List.perm_insertionSort geById es2).symm)
  have hnd1 : ((List.insertionSort geById es).map Prod.fst).Nodup :=
    (((List.perm_insertionSort geById es).map Prod.fst).nodup_iff).mpr hnd
  have hnd2 : ((List.insertionSort geById es2).map Prod.fst).Nodup :=
    ((hperm.map Prod.fst).nodup_iff).mp hnd1
  have hstrict : ∀ l : List RpcEntry, sortedDesc l →
      (l.map Prod.fst).Nodup → l.Pairwise gtById := by
    intro l hs hn
    have hne : l.Pairwise (fun a b : RpcEntry => a.1 ≠ b.1) :=
      (List.pairwise_map).mp hn
    exact (hs.and hne).imp
      (fun h => Nat.lt_of_le_of_ne h.1 (fun he => h.2 he.symm))
  exact List.eq_of_perm_of_sorted hperm
    (hstrict _ (sortedDesc_insertionSort es) hnd1)
    (hstrict _ (sortedDesc_insertionSort es2) hnd2)

/-! ### Claim theorems -/

/-- C3: draining a BatchResponse holding n entries with next_response gives,
over any k calls, exactly min k n Some results; every call past the nth
returns None, and no call is an error or a panic (the drain is a total
function). Stated as: the k outputs number k, the Some outputs among them
number min k n, and the outputs after the nth are all none. -/
theorem next_response_exhaustion {T : Type} (dec : RawValue → Except String T)
    (b : BatchResponse) (k : Nat) :
    (BatchResponse.drainN dec k b).length = k ∧
    (BatchResponse.drainN dec k b).countP (fun o => o.isSome) =
      min k b.responses.length ∧
    (BatchResponse.drainN dec k b).drop b.responses.length =
      List.replicate (k - b.responses.length) none := by
  obtain ⟨l⟩ := b
  rw [drainN_closed_form dec k l]
  refine ⟨?_, ?_, ?_⟩
  · simp
    omega
  · rw [List.countP_append, List.countP_map]
    have h1 : List.countP
        ((fun o : Option (Except BatchError T) => o.isSome) ∘
          (fun e : RpcEntry => some (decodeBody dec e.2)))
        (l.reverse.take k) = (l.reverse.take k).length := by
      apply List.countP_eq_length.mpr
      intro a _
      rfl
    have h2 : List.countP (fun o : Option (Except BatchError T) => o.isSome)
        (List.replicate (k - l.length) none) = 0 := by
      apply List.countP_eq_zero.mpr
      intro a ha
      rw [List.eq_of_mem_replicate ha]
      simp
    rw [h1, h2]
    simp
  · rcases Nat.le_total k l.length with h | h
    · have hk : k - l.length = 0 := by omega
      rw [hk, List.replicate_zero, List.append_nil]
      have hle : ((l.reverse.take k).map
          (fun e : RpcEntry => some (decodeBody dec e.2))).length ≤
            l.length := by
        simp
      exact List.drop_eq_nil_of_le hle
    · have hlen : ((l.reverse.take k).map
          (fun e : RpcEntry => some (decodeBody dec e.2))).length =
            l.length := by
        simp
        omega
      rw [List.drop_left' hlen]

/-- C6 counterexample: add_request on an empty BatchRequest does not fail
with EmptyBatch — it succeeds and appends the request with placeholder id
0. -/
theorem add_request_empty_ok_cex :
    BatchRequest.new.addRequest "m" "p" =
      .ok ⟨[⟨"2.0", some 0, "m", "p"⟩]⟩ ∧
    BatchRequest.new.addRequest "m" "p" ≠ .error .emptyBatch := by
  exact ⟨rfl, by decide⟩

/-- C6 amended: requests, requests_mut and set_ids on an empty BatchRequest,
and id on an empty BatchResponse, fail with the EmptyBatch variant — no
panic (set_ids returns some, never the panic none) and no silent default;
add_request on an empty batch, by contrast, succeeds. -/
theorem empty_batch_errors (b : BatchRequest) (br : BatchResponse)
    (hb : b.requests = []) (hbr : br.responses = [])
    (first : Nat) (m p : String) :
    b.getRequests = .error .emptyBatch ∧
    b.getRequestsMut = .error .emptyBatch ∧
    b.setIds first = some (.error .emptyBatch) ∧
    br.id = .error .emptyBatch ∧
    b.addRequest m p = .ok ⟨[⟨"2.0", some 0, m, p⟩]⟩ := by
  obtain ⟨l⟩ := b
  obtain ⟨l2⟩ := br
  cases hb
  cases hbr
  exact ⟨rfl, rfl, rfl, rfl, rfl⟩

/-- C6 witness: the amended claim at the empty batch and empty response. -/
theorem empty_batch_errors_witness :
    BatchRequest.new.getRequests = .error .emptyBatch ∧
    BatchRequest.new.getRequestsMut = .error .emptyBatch ∧
    BatchRequest.new.setIds 0 = some (.error .emptyBatch) ∧
    (BatchResponse.mk []).id = .error .emptyBatch ∧
    BatchRequest.new.addRequest "m" "p" =
      .ok ⟨[⟨"2.0", some 0, "m", "p"⟩]⟩ :=
  empty_batch_errors BatchRequest.new ⟨[]⟩ rfl rfl 0 "m" "p"

/-- C8 counterexample: nothing stops a second set_ids call on the same
BatchRequest — stamping a one-request batch with first id 3 and then again
with first id 7 overwrites the already-assigned id 3 with 7. -/
theorem set_ids_reassigns_cex :
    (BatchRequest.mk [⟨"2.0", some 0, "m", "p"⟩]).setIds 3 =
      some (.ok ⟨[⟨"2.0", some 3, "m", "p"⟩]⟩) ∧
    (BatchRequest.mk [⟨"2.0", some 3, "m", "p"⟩]).setIds 7 =
      some (.ok ⟨[⟨"2.0", some 7, "m", "p"⟩]⟩) ∧
    (7 : Nat) ≠ 3 := by
  exact ⟨rfl, rfl, by decide⟩

/-- C8 amended: among the BatchRequest operations only set_ids writes id
fields; add_request appends a fresh request and leaves every existing
request — in particular every already-assigned id — unchanged. The
once-only discipline for set_ids itself is a caller obligation the code
does not enforce. -/
theorem ids_preserved_by_add_request (b : BatchRequest) (m p : String) :
    ∃ b2, b.addRequest m p = Except.ok b2 ∧
      b2.requests.take b.len = b.requests ∧
      b2.requests.map (fun r => r.id) =
        b.requests.map (fun r => r.id) ++ [some 0] := by
  refine ⟨⟨b.requests ++ [⟨"2.0", some 0, m, p⟩]⟩, ?_, ?_, ?_⟩
  · rfl
  · exact List.take_left b.requests _
  · simp

/-- On requests that all carry an id field, and without u64 overflow of the
running counter, the set_ids loop stamps the spec-side sequence. -/
theorem setIdsGo_spec :
    ∀ (rs : List RequestValue) (first : Nat),
      (∀ r ∈ rs, r.id.isSome) → first + rs.length ≤ U64 →
      setIdsGo rs first = some (stampedWith first rs) := by
  intro rs
  induction rs with
  | nil => intro first _ _; rfl
  | cons r rs ih =>
    intro first hid hov
    have hr : r.id.isSome := hid r (by simp)
    rcases hri : r.id with _ | i
    · rw [hri] at hr; simp at hr
    · have hstep : setIdsGo (r :: rs) first =
          (setIdsGo rs ((first + 1) % U64)).map
            (fun rs2 => { r with id := some first } :: rs2) := by
        conv_lhs => rw [setIdsGo]
        rw [hri]
      rcases rs with _ | ⟨r2, rs2⟩
      · rw [hstep]
        rfl
      · have hmod : (first + 1) % U64 = first + 1 := by
          refine Nat.mod_eq_of_lt ?_
          simp only [List.length_cons] at hov
          omega
        have hrec := ih (first + 1)
          (fun q hq => hid q (List.mem_cons_of_mem r hq))
          (by simp only [List.length_cons] at hov ⊢; omega)
        rw [hstep, hmod, hrec]
        rfl

/-- The stamped sequence carries exactly the ids first, first+1, …,
first+n-1 in insertion order. -/
theorem stampedWith_ids :
    ∀ (rs : List RequestValue) (first : Nat),
      (stampedWith first rs).map (fun r => r.id) =
        (List.range rs.length).map (fun i => some (first + i)) := by
  intro rs
  induction rs with
  | nil => intro first; rfl
  | cons r rs ih =>
    intro first
    simp only [stampedWith, List.map_cons, List.length_cons,
      List.range_succ_eq_map, List.map_map, ih (first + 1)]
    refine congrArg (fun t => some first :: t) ?_
    refine List.map_congr_left ?_
    intro i _
    simp only [Function.comp]
    rw [Nat.add_assoc, Nat.add_comm 1 i]

/-- C2 amended: on any non-empty BatchRequest whose requests all carry an
id field (every request built by add_request does), and provided
first + n does not exceed 2^64 (no u64 wraparound), set_ids(first) succeeds
and assigns the id fields exactly first, first+1, …, first+n-1 in insertion
order; without the overflow proviso the assigned ids are
(first + i) mod 2^64. -/
theorem set_ids_assigns_sequential (b : BatchRequest) (first : Nat)
    (hne : b.requests ≠ []) (hid : ∀ r ∈ b.requests, r.id.isSome)
    (hov : first + b.requests.length ≤ U64) :
    b.setIds first = some (.ok ⟨stampedWith first b.requests⟩) ∧
    (stampedWith first b.requests).map (fun r => r.id) =
      (List.range b.requests.length).map (fun i => some (first + i)) := by
  constructor
  · have hemp : b.requests.isEmpty = false := by
      rcases h : b.requests with _ | _
      · exact absurd h hne
      · rfl
    unfold BatchRequest.setIds BatchRequest.getRequestsMut
    rw [hemp]
    simp [setIdsGo_spec b.requests first hid hov]
  · exact stampedWith_ids b.requests first

/-- C2 witness: a two-request batch stamped from first id 10 gets ids 10
and 11. -/
theorem set_ids_assigns_sequential_witness :
    (BatchRequest.mk [⟨"2.0", some 0, "m", "p"⟩, ⟨"2.0", some 0, "q", "r"⟩]
        ).setIds 10 =
      some (.ok ⟨stampedWith 10
        [⟨"2.0", some 0, "m", "p"⟩, ⟨"2.0", some 0, "q", "r"⟩]⟩) ∧
    (stampedWith 10
        [⟨"2.0", some 0, "m", "p"⟩, ⟨"2.0", some 0, "q", "r"⟩]).map
        (fun r => r.id) =
      (List.range 2).map (fun i => some (10 + i)) :=
  set_ids_assigns_sequential
    ⟨[⟨"2.0", some 0, "m", "p"⟩, ⟨"2.0", some 0, "q", "r"⟩]⟩ 10
    (by decide) (by decide) (by decide)

/-- C2 counterexample: stamping a two-request batch from first id 2^64 - 1
wraps — the second request gets id 0, not first+1 = 2^64, so the assigned
ids are not first, first+1 as integers. -/
theorem set_ids_overflow_cex :
    (BatchRequest.mk [⟨"2.0", some 0, "m", "p"⟩, ⟨"2.0", some 0, "q", "r"⟩]
        ).setIds (U64 - 1) =
      some (.ok ⟨[⟨"2.0", some (U64 - 1), "m", "p"⟩,
        ⟨"2.0", some 0, "q", "r"⟩]⟩) ∧
    some (0 : Nat) ≠ some ((U64 - 1) + 1) := by
  exact ⟨by decide, by decide⟩

/-- C7 amended: for a non-empty batch of n requests (all carrying an id
field) and counter value c with c + n < 2^64, execute_batch advances the
counter by n in one step, stamps the batch from first id c, and the
outgoing requests carry exactly the strictly increasing ids
c, c+1, …, c+n-1; at c + n = 2^64 the counter itself wraps to 0. -/
theorem execute_batch_reserves_block (r : Relay) (b : BatchRequest)
    (hne : b.requests ≠ []) (hid : ∀ req ∈ b.requests, req.id.isSome)
    (hov : r.id + b.requests.length < U64) :
    (r.executeBatchIds b).1.id = r.id + b.requests.length ∧
    (r.executeBatchIds b).1.url = r.url ∧
    (r.executeBatchIds b).2 = some (.ok ⟨stampedWith r.id b.requests⟩) ∧
    (stampedWith r.id b.requests).map (fun req => req.id) =
      (List.range b.requests.length).map (fun i => some (r.id + i)) ∧
    ((List.range b.requests.length).map (fun i => r.id + i)).Pairwise
      (· < ·) := by
  refine ⟨Nat.mod_eq_of_lt hov, rfl, ?_, stampedWith_ids b.requests r.id, ?_⟩
  · have hemp : b.requests.isEmpty = false := by
      rcases h : b.requests with _ | _
      · exact absurd h hne
      · rfl
    show b.setIds r.id = _
    unfold BatchRequest.setIds BatchRequest.getRequestsMut
    rw [hemp]
    simp [setIdsGo_spec b.requests r.id hid (Nat.le_of_lt hov)]
  · refine (List.pairwise_lt_range _).map _ ?_
    intro i j hij
    exact Nat.add_lt_add_left hij _

/-- C7 witness: a three-request batch at counter 10 moves the counter to 13
and sends ids 10, 11, 12. -/
theorem execute_batch_reserves_block_witness :
    ((Relay.mk 10 "u").executeBatchIds
        ⟨[⟨"2.0", some 0, "a", "x"⟩, ⟨"2.0", some 0, "b", "y"⟩,
          ⟨"2.0", some 0, "c", "z"⟩]⟩).1.id = 10 + 3 ∧
    ((Relay.mk 10 "u").executeBatchIds
        ⟨[⟨"2.0", some 0, "a", "x"⟩, ⟨"2.0", some 0, "b", "y"⟩,
          ⟨"2.0", some 0, "c", "z"⟩]⟩).1.url = "u" ∧
    ((Relay.mk 10 "u").executeBatchIds
        ⟨[⟨"2.0", some 0, "a", "x"⟩, ⟨"2.0", some 0, "b", "y"⟩,
          ⟨"2.0", some 0, "c", "z"⟩]⟩).2 =
      some (.ok ⟨stampedWith 10
        [⟨"2.0", some 0, "a", "x"⟩, ⟨"2.0", some 0, "b", "y"⟩,
          ⟨"2.0", some 0, "c", "z"⟩]⟩) ∧
    (stampedWith 10
        [⟨"2.0", some 0, "a", "x"⟩, ⟨"2.0", some 0, "b", "y"⟩,
          ⟨"2.0", some 0, "c", "z"⟩]).map (fun req => req.id) =
      (List.range 3).map (fun i => some (10 + i)) ∧
    ((List.range 3).map (fun i => 10 + i)).Pairwise (· < ·) :=
  execute_batch_reserves_block ⟨10, "u"⟩
    ⟨[⟨"2.0", some 0, "a", "x"⟩, ⟨"2.0", some 0, "b", "y"⟩,
      ⟨"2.0", some 0, "c", "z"⟩]⟩
    (by decide) (by decide) (by decide)

/-- C7 counterexample: a one-request batch at counter 2^64 - 1 leaves the
counter at 0, not at c + n = 2^64 — the fetch_add wraps. -/
theorem execute_batch_counter_wrap_cex :
    ((Relay.mk (U64 - 1) "u").executeBatchIds
        ⟨[⟨"2.0", some 0, "m", "p"⟩]⟩).1.id = 0 ∧
    (0 : Nat) ≠ (U64 - 1) + 1 := by
  exact ⟨by decide, by decide⟩

/-- C4: on any reachable (descending-sorted) non-exhausted BatchResponse,
next_response pops exactly the entry with the lowest remaining id, leaving
all the other entries in place for later calls; the popped entry yields
Some(Err(the JSON-RPC error, propagated as-is)) when it was an error entry,
Some(Err(deserialization error)) when its success payload fails to decode
at the requested type, and Some(Ok(v)) when decoding succeeds. -/
theorem next_response_pops_min {T : Type} (dec : RawValue → Except String T)
    (b : BatchResponse) (hs : sortedDesc b.responses)
    (hne : b.responses ≠ []) :
    ∃ e rest, b.responses = rest ++ [e] ∧
      (∀ x ∈ b.responses, e.1 ≤ x.1) ∧
      b.nextResponse dec = (some (decodeBody dec e.2), ⟨rest⟩) ∧
      (∀ err, e.2 = .error err →
        decodeBody dec e.2 = .error (.jsonRpcError err)) ∧
      (∀ raw msg, e.2 = .ok raw → dec raw = .error msg →
        decodeBody dec e.2 = .error (.jsonError msg)) ∧
      (∀ raw v, e.2 = .ok raw → dec raw = .ok v →
        decodeBody dec e.2 = .ok v) := by
  obtain ⟨l⟩ := b
  rcases l.eq_nil_or_concat with rfl | ⟨rest, e, h⟩
  · exact absurd rfl hne
  · rw [List.concat_eq_append] at h
    subst h
    refine ⟨e, rest, rfl, ?_, ?_, ?_, ?_, ?_⟩
    · intro x hx
      have hp : (rest ++ [e]).Pairwise (fun a b : RpcEntry => b.1 ≤ a.1) :=
        hs
      rw [List.pairwise_append] at hp
      rcases List.mem_append.mp hx with hx | hx
      · exact hp.2.2 x hx e (by simp)
      · have hxe : x = e := by simpa using hx
        rw [hxe]
    · simp [BatchResponse.nextResponse, List.getLast?_concat]
    · intro err he
      rw [he]
      rfl
    · intro raw msg he hd
      rw [he]
      simp [decodeBody, hd]
    · intro raw v he hd
      rw [he]
      simp [decodeBody, hd]

/-- The identity decoder: a concrete stand-in for serde_json::from_str at
the raw-text type, used to instantiate witnesses. -/
def decIdent : RawValue → Except String RawValue := fun s => .ok s

/-- C4 witness: a response holding the error entry 7 and the success entry
5 pops entry 5 first, leaving entry 7 retrievable. -/
theorem next_response_pops_min_witness :
    ∃ e rest,
      (BatchResponse.mk [(7, .error ⟨-32000, "boom", none⟩),
          (5, .ok "x")]).responses = rest ++ [e] ∧
      (∀ x ∈ (BatchResponse.mk [(7, .error ⟨-32000, "boom", none⟩),
          (5, .ok "x")]).responses, e.1 ≤ x.1) ∧
      (BatchResponse.mk [(7, .error ⟨-32000, "boom", none⟩),
          (5, .ok "x")]).nextResponse decIdent =
        (some (decodeBody decIdent e.2), ⟨rest⟩) ∧
      (∀ err, e.2 = .error err →
        decodeBody decIdent e.2 = .error (.jsonRpcError err)) ∧
      (∀ raw msg, e.2 = .ok raw → decIdent raw = .error msg →
        decodeBody decIdent e.2 = .error (.jsonError msg)) ∧
      (∀ raw v, e.2 = .ok raw → decIdent raw = .ok v →
        decodeBody decIdent e.2 = .ok v) :=
  next_response_pops_min decIdent
    ⟨[(7, .error ⟨-32000, "boom", none⟩), (5, .ok "x")]⟩
    (by decide) (by decide)

/-- C5: on any reachable (descending-sorted) BatchResponse, id() returns the
smallest id among the remaining entries, and fails with the EmptyBatch
error when no entries remain. -/
theorem batch_response_id_min (b : BatchResponse)
    (hs : sortedDesc b.responses) :
    (b.responses = [] → b.id = .error .emptyBatch) ∧
    (b.responses ≠ [] → ∃ m, b.id = .ok m ∧
      m ∈ b.responses.map Prod.fst ∧
      ∀ i ∈ b.responses.map Prod.fst, m ≤ i) := by
  obtain ⟨l⟩ := b
  constructor
  · intro h
    subst h
    rfl
  · intro hne
    rcases l.eq_nil_or_concat with rfl | ⟨rest, e, h⟩
    · exact absurd rfl hne
    · rw [List.concat_eq_append] at h
      subst h
      refine ⟨e.1, ?_, ?_, ?_⟩
      · simp [BatchResponse.id, List.getLast?_concat]
      · simp
      · intro i hi
        have hp : (rest ++ [e]).Pairwise
            (fun a b : RpcEntry => b.1 ≤ a.1) := hs
        rw [List.pairwise_append] at hp
        rcases List.mem_map.mp hi with ⟨x, hx, rfl⟩
        rcases List.mem_append.mp hx with hx | hx
        · exact hp.2.2 x hx e (by simp)
        · have hxe : x = e := by simpa using hx
          rw [hxe]

/-- C5 witness: the claim's example — entries with ids 5, 7, 9 (mixed
success and error, arriving in the order 7, 9, 5) construct to the
descending store 9, 7, 5, and id() returns 5. -/
theorem batch_response_id_min_witness :
    BatchResponse.new? [.success 7 "a", .error 9 ⟨-1, "e", none⟩,
        .success 5 "c"] =
      some ⟨[(9, .error ⟨-1, "e", none⟩), (7, .ok "a"), (5, .ok "c")]⟩ ∧
    (BatchResponse.mk [(9, .error ⟨-1, "e", none⟩), (7, .ok "a"),
        (5, .ok "c")]).id = .ok 5 ∧
    (((BatchResponse.mk [(9, .error ⟨-1, "e", none⟩), (7, .ok "a"),
          (5, .ok "c")]).responses = [] →
        (BatchResponse.mk [(9, .error ⟨-1, "e", none⟩), (7, .ok "a"),
          (5, .ok "c")]).id = .error .emptyBatch) ∧
      ((BatchResponse.mk [(9, .error ⟨-1, "e", none⟩), (7, .ok "a"),
          (5, .ok "c")]).responses ≠ [] →
        ∃ m, (BatchResponse.mk [(9, .error ⟨-1, "e", none⟩), (7, .ok "a"),
            (5, .ok "c")]).id = .ok m ∧
          m ∈ (BatchResponse.mk [(9, .error ⟨-1, "e", none⟩), (7, .ok "a"),
            (5, .ok "c")]).responses.map Prod.fst ∧
          ∀ i ∈ (BatchResponse.mk [(9, .error ⟨-1, "e", none⟩),
            (7, .ok "a"), (5, .ok "c")]).responses.map Prod.fst, m ≤ i)) :=
  ⟨by decide, by decide,
    batch_response_id_min
      ⟨[(9, .error ⟨-1, "e", none⟩), (7, .ok "a"), (5, .ok "c")]⟩
      (by decide)⟩

/-- C1 counterexample: with duplicate ids the drain order is not
permutation-invariant. The arrays success(0,"a"), success(0,"b") and its
permutation success(0,"b"), success(0,"a") construct BatchResponses whose
full drains differ — the stable descending sort keeps arrival order among
equal ids and the pop serves them back to front. -/
theorem drain_order_duplicate_id_cex :
    ([Response.success 0 "a", Response.success 0 "b"]).Perm
      [Response.success 0 "b", Response.success 0 "a"] ∧
    (BatchResponse.new? [.success 0 "a", .success 0 "b"]).map
        BatchResponse.drainEntries =
      some [(0, .ok "b"), (0, .ok "a")] ∧
    (BatchResponse.new? [.success 0 "b", .success 0 "a"]).map
        BatchResponse.drainEntries =
      some [(0, .ok "a"), (0, .ok "b")] ∧
    ([((0 : Nat), (Except.ok "b" : RpcResult)), (0, .ok "a")] ≠
      [((0 : Nat), (Except.ok "a" : RpcResult)), (0, .ok "b")]) := by
  exact ⟨by decide, by decide, by decide, by decide⟩

/-- C1 amended: for entry lists with pairwise-distinct ids — which the
sequential id assignment guarantees for real batches — constructing a
BatchResponse from any permutation and draining it with next_response
yields one and the same sequence of (id, result) entries, ordered by
ascending id. -/
theorem drain_order_perm_invariant (es es2 : List RpcEntry)
    (hp : es.Perm es2) (hnd : (es.map Prod.fst).Nodup) :
    ∃ b b2, BatchResponse.new? (es.map entryToResponse) = some b ∧
      BatchResponse.new? (es2.map entryToResponse) = some b2 ∧
      b.drainEntries = b2.drainEntries ∧
      b.drainEntries.Pairwise (fun x y => x.1 ≤ y.1) := by
  refine ⟨⟨List.insertionSort geById es⟩, ⟨List.insertionSort geById es2⟩,
    ?_, ?_, ?_, ?_⟩
  · simp [BatchResponse.new?, toEntries_map_entryToResponse]
  · simp [BatchResponse.new?, toEntries_map_entryToResponse]
  · rw [drainEntries_eq_reverse, drainEntries_eq_reverse,
      insertionSort_eq_of_perm es es2 hp hnd]
  · rw [drainEntries_eq_reverse]
    exact List.pairwise_reverse.mpr (sortedDesc_insertionSort es)

/-- C1 witness: the entry lists with ids 5, 9, 7 and its permutation 7, 5,
9 drain identically and in ascending id order. -/
theorem drain_order_perm_invariant_witness :
    ∃ b b2,
      BatchResponse.new? (([(5, .ok "a"), (9, .error ⟨-1, "e", none⟩),
          (7, .ok "c")] : List RpcEntry).map entryToResponse) = some b ∧
      BatchResponse.new? (([(7, .ok "c"), (5, .ok "a"),
          (9, .error ⟨-1, "e", none⟩)] : List RpcEntry).map
            entryToResponse) = some b2 ∧
      b.drainEntries = b2.drainEntries ∧
      b.drainEntries.Pairwise (fun x y => x.1 ≤ y.1) :=
  drain_order_perm_invariant
    [(5, .ok "a"), (9, .error ⟨-1, "e", none⟩), (7, .ok "c")]
    [(7, .ok "c"), (5, .ok "a"), (9, .error ⟨-1, "e", none⟩)]
    (by decide) (by decide)

/-- C9: the code evaluated at the failing input. A response array element
with no id and only method/params decodes to a Notification (a legal parse
per the codec), and execute_batch hands it unfiltered to
BatchResponse::new, whose wildcard arm is unreachable! — the run panics
(the none outcome) instead of the Transport Adapter having enforced the
no-notification guarantee before construction. -/
theorem notification_reaches_unreachable :
    Envelope.toResponse ⟨none, none, none, some "m", some "p"⟩ =
      some (.notification "m" "p") ∧
    decodeResponseArray [⟨none, none, none, some "m", some "p"⟩] =
      some [.notification "m" "p"] ∧
    executeBatchDecode [⟨none, none, none, some "m", some "p"⟩] = none := by
  exact ⟨rfl, rfl, rfl⟩

/-- C10: the Clone impl for Relay restarts the clone's id counter at 1 —
not at 0 like Relay::new and not at the original's current value — so the
clone's first issued id (1) coincides with the id the original issues for
its second request. -/
theorem clone_counter_restarts_at_one (r : Relay) (u : String) :
    r.clone.id = 1 ∧
    (Relay.new u).id = 0 ∧
    (r.clone.fetchAddOne).1 =
      (((Relay.new u).fetchAddOne).2.fetchAddOne).1 := by
  refine ⟨rfl, rfl, ?_⟩
  show (1 : Nat) = (0 + 1) % U64
  rw [Nat.zero_add, Nat.mod_eq_of_lt]
  decide

end BatchRpc
